import Mathlib

/-!
Verification development for the MCQ generator application (`app.py`).

The Python source is shallowly embedded: pure functions become Lean
functions, the Streamlit session store becomes an explicit `Session`
record, exceptions become `Option`/error fields, and the reportlab
canvas becomes a trace of drawing instructions.  Machine floats never
carry fractional values in the source (all page coordinates are
integers and font sizes are integer literals), so coordinates are
modelled as `Int`; text widths are modelled exactly, in thousandths of
a point (`Nat`), matching reportlab's integer Helvetica glyph tables.
-/

/-! ## Python string primitives -/

/-- Python `\s` / `str.split()` whitespace for ASCII text
(space, tab, newline, carriage return, vertical tab, form feed). -/
def isPySpace (c : Char) : Bool :=
  c == ' ' || c == '\t' || c == '\n' || c == '\r' || c == '\x0b' || c == '\x0c'

/-- Python `str.strip()`: drop leading and trailing whitespace. -/
def pyStrip (s : String) : String :=
  String.mk ((((s.data.dropWhile isPySpace).reverse).dropWhile isPySpace).reverse)

/-- Helper for `pySplit`: split a character list on whitespace runs,
accumulating the current word in reverse. -/
def pySplitAux : List Char → List Char → List (List Char)
  | [], acc => if acc.isEmpty then [] else [acc.reverse]
  | c :: cs, acc =>
    if isPySpace c then
      if acc.isEmpty then pySplitAux cs [] else acc.reverse :: pySplitAux cs []
    else
      pySplitAux cs (c :: acc)

/-- Python `str.split()` with no argument: split on whitespace runs,
discarding empty pieces. -/
def pySplit (s : String) : List String :=
  (pySplitAux s.data []).map String.mk

/-! ## JSON values and a model of `json.loads` -/

/-- JSON values as produced by `json.loads`: objects are association
lists in insertion order with distinct keys (the parser replaces the
value of a repeated key in place, like a Python `dict`). -/
inductive JValue where
  | null : JValue
  | bool : Bool → JValue
  | num : ℚ → JValue
  | str : String → JValue
  | arr : List JValue → JValue
  | obj : List (String × JValue) → JValue

/-- JSON whitespace accepted by `json.loads` between tokens. -/
def skipWs (cs : List Char) : List Char :=
  cs.dropWhile (fun c => c == ' ' || c == '\t' || c == '\n' || c == '\r')

/-- Value of a hexadecimal digit. -/
def hexVal (c : Char) : Option Nat :=
  if '0' ≤ c ∧ c ≤ '9' then some (c.toNat - 48)
  else if 'a' ≤ c ∧ c ≤ 'f' then some (c.toNat - 87)
  else if 'A' ≤ c ∧ c ≤ 'F' then some (c.toNat - 55)
  else none

/-- Value of four hexadecimal digits (a `\uXXXX` escape payload). -/
def hex4 (a b c d : Char) : Option Nat := do
  let va ← hexVal a
  let vb ← hexVal b
  let vc ← hexVal c
  let vd ← hexVal d
  pure (((va * 16 + vb) * 16 + vc) * 16 + vd)

/-- Body of a JSON string literal, after the opening quote.  Strict
JSON escapes as in `json.loads`; control characters are rejected.
(Lone surrogate escapes, which CPython tolerates, are rejected here;
no modelled input contains them.) -/
def parseJStr : List Char → List Char → Option (String × List Char)
  | [], _ => none
  | '"' :: rest, acc => some (String.mk acc.reverse, rest)
  | '\\' :: 'u' :: h1 :: h2 :: h3 :: h4 :: rest, acc =>
    match hex4 h1 h2 h3 h4 with
    | none => none
    | some n =>
      if n < 0xd800 ∨ 0xdfff < n then
        parseJStr rest (Char.ofNat n :: acc)
      else if n < 0xdc00 then
        match rest with
        | '\\' :: 'u' :: g1 :: g2 :: g3 :: g4 :: rest2 =>
          match hex4 g1 g2 g3 g4 with
          | none => none
          | some m =>
            if 0xdc00 ≤ m ∧ m ≤ 0xdfff then
              parseJStr rest2
                (Char.ofNat (0x10000 + (n - 0xd800) * 0x400 + (m - 0xdc00)) :: acc)
            else none
        | _ => none
      else none
  | '\\' :: e :: rest, acc =>
    if e == '"' then parseJStr rest ('"' :: acc)
    else if e == '\\' then parseJStr rest ('\\' :: acc)
    else if e == '/' then parseJStr rest ('/' :: acc)
    else if e == 'b' then parseJStr rest ('\x08' :: acc)
    else if e == 'f' then parseJStr rest ('\x0c' :: acc)
    else if e == 'n' then parseJStr rest ('\n' :: acc)
    else if e == 'r' then parseJStr rest ('\r' :: acc)
    else if e == 't' then parseJStr rest ('\t' :: acc)
    else none
  | c :: rest, acc => if c.toNat < 32 then none else parseJStr rest (c :: acc)

/-- Decimal digit test. -/
def isDig (c : Char) : Bool := '0' ≤ c && c ≤ '9'

/-- Read a run of decimal digits as a natural number. -/
def readDigits (cs : List Char) : Nat × Nat × List Char :=
  let digs := cs.takeWhile isDig
  (digs.foldl (fun a c => a * 10 + (c.toNat - 48)) 0, digs.length, cs.dropWhile isDig)

/-- JSON number per the strict RFC grammar used by `json.loads`:
optional minus, integer part without leading zeros, optional fraction,
optional exponent. -/
def parseJNum (cs : List Char) : Option (ℚ × List Char) :=
  let (neg, cs1) := match cs with
    | '-' :: r => (true, r)
    | _ => (false, cs)
  let intPart : Option (Nat × List Char) := match cs1 with
    | '0' :: r => some (0, r)
    | c :: _ => if isDig c ∧ c ≠ '0' then
        let (n, _, r) := readDigits cs1
        some (n, r)
      else none
    | [] => none
  match intPart with
  | none => none
  | some (i, cs2) =>
    let fracPart : Option (ℚ × List Char) := match cs2 with
      | '.' :: r =>
        match r with
        | c :: _ => if isDig c then
            let (f, k, r2) := readDigits r
            some ((f : ℚ) / (10 : ℚ) ^ k, r2)
          else none
        | [] => none
      | _ => some (0, cs2)
    match fracPart with
    | none => none
    | some (f, cs3) =>
      let expPart : Option (ℚ × List Char) := match cs3 with
        | 'e' :: r | 'E' :: r =>
          let (eneg, r1) := match r with
            | '-' :: r2 => (true, r2)
            | '+' :: r2 => (false, r2)
            | _ => (false, r)
          match r1 with
          | c :: _ => if isDig c then
              let (e, _, r2) := readDigits r1
              some (if eneg then ((10 : ℚ) ^ e)⁻¹ else (10 : ℚ) ^ e, r2)
            else none
          | [] => none
        | _ => some (1, cs3)
      match expPart with
      | none => none
      | some (sc, cs4) =>
        let v : ℚ := ((i : ℚ) + f) * sc
        some (if neg then -v else v, cs4)

/-- Python `dict` insertion: a repeated key keeps its original
position and takes the new value. -/
def insertKV (kvs : List (String × JValue)) (k : String) (v : JValue) :
    List (String × JValue) :=
  if kvs.any (fun p => p.1 == k) then
    kvs.map (fun p => if p.1 == k then (k, v) else p)
  else kvs ++ [(k, v)]

mutual

/-- One JSON value, fuel-bounded (fuel exceeds the input length at the
top-level call, and every recursive call consumes input first). -/
def parseJV : Nat → List Char → Option (JValue × List Char)
  | 0, _ => none
  | Nat.succ fuel, cs =>
    match skipWs cs with
    | [] => none
    | c :: rest =>
      if c == '\x7b' then parseJObj fuel rest [] true
      else if c == '[' then parseJArr fuel rest [] true
      else if c == '"' then
        match parseJStr rest [] with
        | some (s, r) => some (JValue.str s, r)
        | none => none
      else if c == 't' then
        if "rue".data.isPrefixOf rest then some (JValue.bool true, rest.drop 3) else none
      else if c == 'f' then
        if "alse".data.isPrefixOf rest then some (JValue.bool false, rest.drop 4) else none
      else if c == 'n' then
        if "ull".data.isPrefixOf rest then some (JValue.null, rest.drop 3) else none
      else
        match parseJNum (c :: rest) with
        | some (q, r) => some (JValue.num q, r)
        | none => none

/-- Members of a JSON object, after the opening brace.  `first` allows
an immediately closing brace (`{}`); after a comma a member is
required. -/
def parseJObj : Nat → List Char → List (String × JValue) → Bool →
    Option (JValue × List Char)
  | 0, _, _, _ => none
  | Nat.succ fuel, cs, acc, first =>
    match skipWs cs with
    | [] => none
    | c :: rest =>
      if c == '\x7d' ∧ first then some (JValue.obj acc, rest)
      else if c == '"' then
        match parseJStr rest [] with
        | none => none
        | some (k, r1) =>
          match skipWs r1 with
          | ':' :: r2 =>
            match parseJV fuel r2 with
            | none => none
            | some (v, r3) =>
              match skipWs r3 with
              | ',' :: r4 => parseJObj fuel r4 (insertKV acc k v) false
              | '\x7d' :: r4 => some (JValue.obj (insertKV acc k v), r4)
              | _ => none
          | _ => none
      else none

/-- Items of a JSON array, after the opening bracket. -/
def parseJArr : Nat → List Char → List JValue → Bool →
    Option (JValue × List Char)
  | 0, _, _, _ => none
  | Nat.succ fuel, cs, acc, first =>
    match skipWs cs with
    | [] => none
    | c :: rest =>
      if c == ']' ∧ first then some (JValue.arr acc.reverse, rest)
      else
        match parseJV fuel cs with
        | none => none
        | some (v, r1) =>
          match skipWs r1 with
          | ',' :: r2 => parseJArr fuel r2 (v :: acc) false
          | ']' :: r2 => some (JValue.arr (v :: acc).reverse, r2)
          | _ => none

end

/-- Model of `json.loads`: parse one JSON value and require only
whitespace to remain. -/
def pyJsonLoads (s : String) : Option JValue :=
  match parseJV (s.length + 2) s.data with
  | some (v, rest) => if (skipWs rest).isEmpty then some v else none
  | none => none

/-! ## `clean_json_response` (app.py lines 83-96) -/

/-- Drop a run of whitespace, as matched by a greedy `\s*`. -/
def dropWsRun (cs : List Char) : List Char := cs.dropWhile isPySpace

/-- One `re.sub(pat + r'\s*', '', ·)` pass for a literal pattern
`pat`: scan left to right, removing each non-overlapping occurrence of
the literal together with the whitespace run that follows it.  Fuel is
the input length, which the scan never exhausts. -/
def reSubLiteralWs (pat : List Char) : Nat → List Char → List Char
  | _, [] => []
  | 0, cs => cs
  | Nat.succ fuel, c :: cs =>
    if pat ≠ [] ∧ pat.isPrefixOf (c :: cs) then
      reSubLiteralWs pat fuel (dropWsRun ((c :: cs).drop pat.length))
    else c :: reSubLiteralWs pat fuel cs

/-- The two markdown-fence substitutions of `clean_json_response`:
first remove every ```` ```json ```` (with trailing whitespace), then
every ```` ``` ````. -/
def stripFences (cs : List Char) : List Char :=
  let s1 := reSubLiteralWs "```json".data cs.length cs
  reSubLiteralWs "```".data s1.length s1

/-- Python `str.find(c)` as an optional index. -/
def pyFindChar (cs : List Char) (c : Char) : Option Nat :=
  cs.findIdx? (· == c)

/-- Python `str.rfind(c)` as an optional index. -/
def pyRfindChar (cs : List Char) (c : Char) : Option Nat :=
  (cs.reverse.findIdx? (· == c)).map (fun i => cs.length - 1 - i)

/-- `clean_json_response`: strip fence markers, then slice from the
first `{` to the last `}`.  `none` is the `ValueError` raised when no
`{` is found (`start_idx == -1`) or no `}` is found (`end_idx == 0`). -/
def clean_json_response (response_text : String) : Option String :=
  let cs := stripFences response_text.data
  match pyFindChar cs '\x7b' with
  | none => none
  | some start_idx =>
    match pyRfindChar cs '\x7d' with
    | none => none
    | some e => some (String.mk ((cs.drop start_idx).take (e + 1 - start_idx)))

/-- The text between the first `{` and the last `}` of a character
list (empty when there is no such non-empty slice), as described by
the specification; `clean_json_response` returns exactly this slice
when it does not fail. -/
def braceSlice (cs : List Char) : List Char :=
  match pyFindChar cs '\x7b', pyRfindChar cs '\x7d' with
  | some s, some e => (cs.drop s).take (e + 1 - s)
  | _, _ => []

/-- `clean_json_response` followed by `json.loads`, the parsing stage
of `generate_mcqs`; `none` when either step raises. -/
def parseStage (raw : String) : Option JValue :=
  match clean_json_response raw with
  | none => none
  | some t => pyJsonLoads t

/-! ## Python dynamic operations used by `validate_question` -/

/-- Python `==` on JSON scalars.  `True == 1` and `False == 0` hold in
Python; containers are compared here only against strings, where
Python `==` is `False`, which the `arr`/`obj` lines reflect. -/
def pyEq : JValue → JValue → Bool
  | JValue.null, JValue.null => true
  | JValue.bool a, JValue.bool b => a == b
  | JValue.bool a, JValue.num q => q == (if a then 1 else 0)
  | JValue.num q, JValue.bool a => q == (if a then 1 else 0)
  | JValue.num a, JValue.num b => a == b
  | JValue.str a, JValue.str b => a == b
  | _, _ => false

/-- Substring test on character lists (Python `needle in hay` for
strings). -/
def subseqAt (needle : List Char) : List Char → Bool
  | [] => needle.isEmpty
  | c :: cs => needle.isPrefixOf (c :: cs) || subseqAt needle cs

/-- Python `key in x` for a string `key`: key lookup on a `dict`,
substring test on a `str`, element equality on a `list`; `TypeError`
(`none`) on values that are not containers. -/
def pyContains (x : JValue) (key : String) : Option Bool :=
  match x with
  | JValue.obj kvs => some (kvs.any (fun p => p.1 == key))
  | JValue.str s => some (subseqAt key.data s.data)
  | JValue.arr xs => some (xs.any (fun v => pyEq (JValue.str key) v))
  | _ => none

/-- Python `x[key]` for a string `key`: `dict` lookup; `KeyError` or
`TypeError` (both exceptions, `none`) otherwise. -/
def pyGetItem (x : JValue) (key : String) : Option JValue :=
  match x with
  | JValue.obj kvs => (kvs.find? (fun p => p.1 == key)).map Prod.snd
  | _ => none

/-- Python `value in d` for a `dict` `d`: hashes `value` and compares
with the keys; `TypeError` (`none`) when `value` is unhashable (a
`list` or `dict`). -/
def pyDictContainsVal (kvs : List (String × JValue)) (v : JValue) : Option Bool :=
  match v with
  | JValue.arr _ => none
  | JValue.obj _ => none
  | _ => some (kvs.any (fun p => pyEq v (JValue.str p.1)))

/-- Python `len(x)`: length of a `str`, `list` or `dict`; `TypeError`
(`none`) on numbers, booleans and `None`. -/
def pyLen : JValue → Option Nat
  | JValue.str s => some s.length
  | JValue.arr xs => some xs.length
  | JValue.obj kvs => some kvs.length
  | _ => none

/-- `all(key in question for key in required_keys)` with Python's
short-circuiting; `none` when a membership test raises `TypeError`. -/
def pyContainsAll (q : JValue) : List String → Option Bool
  | [] => some true
  | k :: ks =>
    match pyContains q k with
    | none => none
    | some false => some false
    | some true => pyContainsAll q ks

/-! ## `validate_question` (app.py lines 178-202) -/

/-- `validate_question`: the chain of structural checks, in source
order.  `some b` is a normal boolean return; `none` is an uncaught
exception (`TypeError`/`KeyError`) escaping to the caller. -/
def validate_question (question : JValue) : Option Bool :=
  match pyContainsAll question ["question", "options", "correct_answer", "explanation"] with
  | none => none
  | some false => some false
  | some true =>
    match pyGetItem question "options" with
    | none => none
    | some opts =>
      match opts with
      | JValue.obj kvs =>
        if kvs.length ≠ 4 then some false
        else
          match pyGetItem question "correct_answer" with
          | none => none
          | some ca =>
            match pyDictContainsVal kvs ca with
            | none => none
            | some false => some false
            | some true =>
              match pyGetItem question "question" with
              | none => none
              | some qv =>
                match pyLen qv with
                | none => none
                | some lq =>
                  if lq < 10 then some false
                  else
                    match pyGetItem question "explanation" with
                    | none => none
                    | some ev =>
                      match pyLen ev with
                      | none => none
                      | some le => some (¬ le < 20)
      | _ => some false

/-- The Question invariants as the specification states them: all four
required fields present, `options` a mapping with exactly 4 labels,
`correct_answer` one of the labels, prompt length at least 10 and
explanation length at least 20 (lengths in Python `len` semantics on
the stored field value). -/
def questionInvariantB (q : JValue) : Bool :=
  match q with
  | JValue.obj kvs =>
    ["question", "options", "correct_answer", "explanation"].all
        (fun k => kvs.any (fun p => p.1 == k)) &&
      (match (kvs.find? (fun p => p.1 == "options")).map Prod.snd with
       | some (JValue.obj opts) =>
         opts.length == 4 &&
           (match (kvs.find? (fun p => p.1 == "correct_answer")).map Prod.snd with
            | some ca => opts.any (fun p => pyEq ca (JValue.str p.1))
            | none => false)
       | _ => false) &&
      (match (kvs.find? (fun p => p.1 == "question")).map Prod.snd with
       | some qv => ((pyLen qv).getD 0) ≥ 10
       | none => false) &&
      (match (kvs.find? (fun p => p.1 == "explanation")).map Prod.snd with
       | some ev => ((pyLen ev).getD 0) ≥ 20
       | none => false)
  | _ => false

/-! ## `generate_mcqs` (app.py lines 98-176) -/

/-- The loop `for q in questions_data['questions']: if
validate_question(q) ...`, collecting accepted entries in order;
`none` when `validate_question` raises on some entry, which aborts the
whole round. -/
def collectValidated : List JValue → Option (List JValue)
  | [] => some []
  | q :: rest =>
    match validate_question q with
    | none => none
    | some true => (collectValidated rest).map (fun vs => q :: vs)
    | some false => collectValidated rest

/-- Python `for q in x`: a `list` iterates its elements, a `str` its
one-character substrings, a `dict` its keys; `TypeError` (`none`)
otherwise. -/
def iterEntries : JValue → Option (List JValue)
  | JValue.arr xs => some xs
  | JValue.str s => some (s.data.map (fun c => JValue.str (String.mk [c])))
  | JValue.obj kvs => some (kvs.map (fun p => JValue.str p.1))
  | _ => none

/-- The distinct `st.error`/exception paths of `generate_mcqs`; every
one of them is caught inside the function and reported, never
propagated. -/
inductive GenErr where
  | notEnoughContent : GenErr
  | malformed : GenErr
  | jsonDecode : GenErr
  | schemaMissingQuestions : GenErr
  | typeError : GenErr
deriving DecidableEq

/-- Outcome of one `generate_mcqs` call: the returned list, whether
the "fewer than requested" warning was shown, and which error message
(if any) was shown.  Whenever `errMsg` is set the returned list is
empty. -/
structure GenResult where
  questions : List JValue
  warned : Bool
  errMsg : Option GenErr

/-- `generate_mcqs`, with the external model call replaced by its
free-text response `responseText` (the difficulty label and the
exclusion hint only affect the prompt sent to that black box, so they
do not appear here).  Faithful to the source: the short-content
precheck, `clean_json_response`, `json.loads`, the `'questions'` key
check, per-entry validation with dropped rejects, the shortfall
warning, and the `except` clauses that convert every raised error into
an error message plus an empty returned list. -/
def generate_mcqs (content : String) (num_questions : Nat) (responseText : String) :
    GenResult :=
  if (pyStrip content).length < 50 then ⟨[], false, some GenErr.notEnoughContent⟩
  else
    match clean_json_response responseText with
    | none => ⟨[], false, some GenErr.malformed⟩
    | some json_str =>
      match pyJsonLoads json_str with
      | none => ⟨[], false, some GenErr.jsonDecode⟩
      | some questions_data =>
        match pyContains questions_data "questions" with
        | none => ⟨[], false, some GenErr.typeError⟩
        | some false => ⟨[], false, some GenErr.schemaMissingQuestions⟩
        | some true =>
          match pyGetItem questions_data "questions" with
          | none => ⟨[], false, some GenErr.typeError⟩
          | some qsv =>
            match iterEntries qsv with
            | none => ⟨[], false, some GenErr.typeError⟩
            | some entries =>
              match collectValidated entries with
              | none => ⟨[], false, some GenErr.typeError⟩
              | some validated =>
                ⟨validated, decide (validated.length < num_questions), none⟩

/-! ## The session store and `calculate_score` (app.py lines 36-53, 330-353) -/

/-- The shape shared by every question `dict` that `validate_question`
accepts and the session stores: the four required fields, four option
label/text pairs, and a `correct_answer` drawn from the labels (the
membership test only succeeds on string keys).  Textual fields are
taken as strings, which is the shape the UI and the report renderer
consume. -/
structure Question where
  question : String
  options : List (String × String)
  correct_answer : String
  explanation : String
deriving DecidableEq

/-- The `user_answers` dict: question index to selected label, where
`none` is the `None` that `st.radio(..., index=None)` yields before a
selection is made (the unanswered sentinel). -/
abbrev AnsMap : Type := List (Nat × Option String)

/-- Dict lookup on an answer map: `some v` when the index is present
with stored value `v`, `none` when absent. -/
def ansGet (m : AnsMap) (i : Nat) : Option (Option String) :=
  ((List.find? (fun p => p.1 == i)) m).map Prod.snd

/-- The Streamlit session-state keys initialised by
`initialize_session_state`. -/
structure Session where
  questions : List Question
  practice_mode : Bool
  user_answers : AnsMap
  submitted : Bool
  selected_answers : AnsMap
  pdf_content : Option String
  generation_count : Nat
  used_questions : List String
deriving DecidableEq

/-- The fresh state produced by `initialize_session_state`. -/
def initialSession : Session :=
  ⟨[], false, [], false, [], none, 0, []⟩

/-- One iteration of the scoring loop: the answered branch is entered
only when the index is present *and* the stored value is truthy
(Python `if i in st.session_state.user_answers and
st.session_state.user_answers[i]`), so a stored `None` — and a stored
empty string, which is also falsy — falls to the `unanswered` branch;
an answered-but-wrong index increments neither counter. -/
def scoreStep (ans : AnsMap) (acc : Nat × Nat) (iq : Nat × Question) : Nat × Nat :=
  match ansGet ans iq.1 with
  | some (some s) =>
    if s ≠ "" then
      if s = iq.2.correct_answer then (acc.1 + 1, acc.2) else acc
    else (acc.1, acc.2 + 1)
  | _ => (acc.1, acc.2 + 1)

/-- `calculate_score`: returns `(correct, total, unanswered)`. -/
def calculate_score (questions : List Question) (user_answers : AnsMap) :
    Nat × Nat × Nat :=
  let cu := questions.enum.foldl (scoreStep user_answers) (0, 0)
  (cu.1, questions.length, cu.2)

/-- The percentage computed at the results screen:
`(correct / total) * 100 if total > 0 else 0` (app.py line 508). -/
def score_percentage (correct total : Nat) : ℚ :=
  if total > 0 then ((correct : ℚ) / (total : ℚ)) * 100 else 0

/-- `reset_quiz`: clears the practice flags, both answer dicts, the
question list, the generation counter and the fingerprint set.
(`pdf_content` is not among the keys it assigns.) -/
def reset_quiz (s : Session) : Session :=
  { s with
    practice_mode := false
    submitted := false
    user_answers := []
    selected_answers := []
    questions := []
    generation_count := 0
    used_questions := [] }

/-! ## The generation round in `main` (app.py lines 427-459) -/

/-- Reading the string fields of an accepted question `dict` into the
`Question` record stored by the session (glue between the parsed
representation and the typed store; every field a generation round
stores was checked present by `validate_question`). -/
def toQuestionRecord (j : JValue) : Question :=
  let getStr (k : String) : String :=
    match pyGetItem j k with
    | some (JValue.str s) => s
    | _ => ""
  let opts : List (String × String) :=
    match pyGetItem j "options" with
    | some (JValue.obj kvs) =>
      kvs.map (fun p => (p.1, match p.2 with | JValue.str t => t | _ => ""))
    | _ => []
  ⟨getStr "question", opts, getStr "correct_answer", getStr "explanation"⟩

/-- Python `set.add` on the fingerprint set (kept as a duplicate-free
list). -/
def setAdd (s : List String) (x : String) : List String :=
  if s.contains x then s else s ++ [x]

/-- Python `q['question'][:50]`, the stored question fingerprint. -/
def fingerprint (q : JValue) : String :=
  match pyGetItem q "question" with
  | some (JValue.str s) => String.mk (s.data.take 50)
  | _ => ""

/-- The `Start Practice Mode` round of `main`: run `generate_mcqs` and
mutate the session only under `if questions:` — a falsy (empty) result
leaves every key untouched and shows an error instead. -/
def startRound (s : Session) (content : String) (num_questions : Nat)
    (responseText : String) : Session :=
  let r := generate_mcqs content num_questions responseText
  if r.questions.isEmpty then s
  else
    { s with
      questions := r.questions.map toQuestionRecord
      practice_mode := true
      generation_count := s.generation_count + 1
      pdf_content := some content
      used_questions := r.questions.foldl (fun acc q => setAdd acc (fingerprint q))
        s.used_questions }

/-! ## Helvetica metrics and the canvas trace (app.py lines 204-328) -/

/-- Standard Helvetica advance widths (AFM units, thousandths of the
font size) for character codes 32-126, as shipped with reportlab. -/
def helvWidthList : List Nat :=
  [278, 278, 355, 556, 556, 889, 667, 191, 333, 333, 389, 584, 278, 333, 278, 278,
   556, 556, 556, 556, 556, 556, 556, 556, 556, 556, 278, 278, 584, 584, 584, 556,
   1015, 667, 667, 722, 722, 667, 611, 778, 722, 278, 500, 667, 556, 833, 722, 778,
   667, 778, 722, 667, 611, 722, 667, 944, 667, 667, 611, 278, 278, 278, 469, 556,
   333, 556, 556, 500, 556, 556, 278, 556, 556, 222, 222, 500, 222, 833, 556, 556,
   556, 556, 333, 500, 278, 556, 500, 722, 500, 500, 500, 334, 260, 334, 584]

/-- Advance width of one glyph in AFM units.  Characters outside the
ASCII range take a nominal default; no claim depends on their exact
advance, only on widths being additive and nonnegative. -/
def charWidthUnits (c : Char) : Nat :=
  if 32 ≤ c.toNat ∧ c.toNat ≤ 126 then helvWidthList.getD (c.toNat - 32) 600 else 600

/-- `canvas.stringWidth` for Helvetica at integer font size `fs`,
measured exactly in thousandths of a point (the reportlab value is
`(Σ units) * fs / 1000` points, so `stringWidthM fs s < 1000 * W`
is the float comparison `stringWidth(s) < W` computed exactly). -/
def stringWidthM (fs : Nat) (s : String) : Nat :=
  (s.data.map charWidthUnits).sum * fs

/-- An RGB fill color as set by `setFillColorRGB`. -/
structure RGB where
  r : ℚ
  g : ℚ
  b : ℚ

/-- The three colors the report uses. -/
def greenC : RGB := ⟨0, 6 / 10, 0⟩

/-- Red, for a selected wrong answer. -/
def redC : RGB := ⟨8 / 10, 0, 0⟩

/-- Black, the neutral text color. -/
def blackC : RGB := ⟨0, 0, 0⟩

/-- One `drawString` call: which page it lands on, its position, its
text, and the font and fill color in effect. -/
structure DrawEvent where
  page : Nat
  x : ℤ
  y : ℤ
  text : String
  fontName : String
  fontSize : Nat
  color : RGB

/-- The reportlab canvas as a trace of emitted `drawString` events
plus the current page index and graphics state. -/
structure Canvas where
  events : List DrawEvent
  page : Nat
  fontName : String
  fontSize : Nat
  fill : RGB

/-- A fresh canvas: page 0, default Helvetica 12, black fill. -/
def Canvas.new : Canvas := ⟨[], 0, "Helvetica", 12, blackC⟩

/-- `canvas.setFont`. -/
def Canvas.setFont (c : Canvas) (name : String) (size : Nat) : Canvas :=
  { c with fontName := name, fontSize := size }

/-- `canvas.setFillColorRGB`. -/
def Canvas.setFillColorRGB (c : Canvas) (col : RGB) : Canvas :=
  { c with fill := col }

/-- `canvas.drawString`: record the text at the given position with
the current graphics state. -/
def Canvas.drawString (c : Canvas) (x y : ℤ) (text : String) : Canvas :=
  { c with events := c.events ++ [⟨c.page, x, y, text, c.fontName, c.fontSize, c.fill⟩] }

/-- `canvas.showPage`: start a new page; reportlab resets the
graphics state (font and fill) to the fresh-page defaults. -/
def Canvas.showPage (c : Canvas) : Canvas :=
  ⟨c.events, c.page + 1, "Helvetica", 12, blackC⟩

/-- The greedy accumulation loop of `draw_wrapped_text`: extend the
line while `stringWidth(line + word + " ") < max_width`, else commit
`line.strip()` (when the line is non-empty) and restart from the
word.  `mw` is the width budget in thousandths of a point. -/
def wrapAux (fs mw : Nat) : List String → List String → String → List String
  | [], lines, line => if line ≠ "" then lines ++ [pyStrip line] else lines
  | w :: ws, lines, line =>
    let test_line := line ++ w ++ " "
    if stringWidthM fs test_line < mw then wrapAux fs mw ws lines test_line
    else if line ≠ "" then wrapAux fs mw ws (lines ++ [pyStrip line]) (w ++ " ")
    else wrapAux fs mw ws lines (w ++ " ")

/-- The list of lines `draw_wrapped_text` lays out for a text. -/
def wrapLines (fs mw : Nat) (text : String) : List String :=
  wrapAux fs mw (pySplit text) [] ""

/-- The drawing loop of `draw_wrapped_text`: before each line, `if y <
50` emit a page break, set `y = 750` and restore the font; then draw
the line and advance by `font_size + 3`. -/
def drawLinesLoop (fs : Nat) (x : ℤ) : List String → Canvas → ℤ → Canvas × ℤ
  | [], c, y => (c, y)
  | ln :: ls, c, y =>
    let cy := if y < 50 then ((c.showPage).setFont "Helvetica" fs, (750 : ℤ)) else (c, y)
    let c := cy.1.drawString x cy.2 ln
    drawLinesLoop fs x ls c (cy.2 - ((fs : ℤ) + 3))

/-- `draw_wrapped_text` (app.py lines 204-231): set the font, wrap the
text against the width budget (in thousandths of a point), draw the
lines with the page-break check, and return the final cursor. -/
def draw_wrapped_text (c : Canvas) (text : String) (x y : ℤ) (mw : Nat) (fs : Nat) :
    Canvas × ℤ :=
  let c := c.setFont "Helvetica" fs
  drawLinesLoop fs x (wrapLines fs mw text) c y

/-! ## `generate_pdf` (app.py lines 233-328) -/

/-- The color chosen for one option line (app.py lines 293-302):
green for the selected answer when it is correct, red when it is not,
green for the correct label when the user was wrong, black otherwise.
`user_answer` is `none` when the stored selection was `None`. -/
def optionColor (opt : String) (user_answer : Option String) (correct_answer : String) :
    RGB :=
  let is_correct := user_answer = some correct_answer
  if some opt = user_answer then (if is_correct then greenC else redC)
  else if opt = correct_answer ∧ ¬ is_correct then greenC
  else blackC

/-- The text of one option line (app.py lines 304-308): label, text,
then a "your answer" marker when selected and a "correct" marker on
the correct label. -/
def optionText (opt text : String) (user_answer : Option String)
    (correct_answer : String) : String :=
  let t := "   " ++ opt ++ ". " ++ text
  let t := if some opt = user_answer then t ++ " ← Your answer" else t
  if opt = correct_answer then t ++ " ✓ Correct" else t

/-- `sorted(q['options'].items())`: options in label order. -/
def sortedOptions (opts : List (String × String)) : List (String × String) :=
  opts.mergeSort (fun a b => decide (a.1 ≤ b.1))

/-- The option loop of a question (app.py lines 287-311): page-break
check at `y < 80`, fill color, option text, wrapped drawing at
`margin + 20` against budget `max_width - 40`, then a 3-point gap. -/
def renderOptionsLoop (user_answer : Option String) (correct_answer : String) :
    List (String × String) → Canvas → ℤ → Canvas × ℤ
  | [], c, y => (c, y)
  | (opt, text) :: rest, c, y =>
    let cy := if y < 80 then ((c.showPage).setFont "Helvetica" 10, (742 : ℤ)) else (c, y)
    let c := cy.1.setFillColorRGB (optionColor opt user_answer correct_answer)
    let cy2 := draw_wrapped_text c (optionText opt text user_answer correct_answer)
      70 cy.2 472000 10
    renderOptionsLoop user_answer correct_answer rest cy2.1 (cy2.2 - 3)

/-- One question block of the report (app.py lines 267-324).  Numeric
positions are the evaluated source expressions for US letter
(`margin = 50`, `height - margin = 742`, `max_width = 512`). -/
def renderQuestion (user_answers : AnsMap) (i : Nat) (q : Question)
    (c : Canvas) (y : ℤ) : Canvas × ℤ :=
  let user_answer : Option String := (ansGet user_answers i).getD (some "Not answered")
  let cy := if y < 150 then (c.showPage, (742 : ℤ)) else (c, y)
  let c := (cy.1.setFont "Helvetica-Bold" 12).drawString 50 cy.2
    ("Question " ++ toString (i + 1) ++ ":")
  let y := cy.2 - 20
  let c := c.setFont "Helvetica" 11
  let cy2 := draw_wrapped_text c q.question 60 y 502000 11
  let y := cy2.2 - 10
  let c := cy2.1.setFont "Helvetica" 10
  let cy3 := renderOptionsLoop user_answer q.correct_answer (sortedOptions q.options) c y
  let c := (cy3.1.setFillColorRGB blackC).setFont "Helvetica-Bold" 10
  let y := cy3.2 - 10
  let cy4 := if y < 60 then (c.showPage, (742 : ℤ)) else (c, y)
  let c := cy4.1.drawString 60 cy4.2 "Explanation:"
  let c := c.setFont "Helvetica-Oblique" 9
  let y := cy4.2 - 15
  let cy5 := draw_wrapped_text c q.explanation 70 y 472000 9
  (cy5.1, cy5.2 - 25)

/-- The `for i, q in enumerate(questions)` loop of `generate_pdf`. -/
def renderQuestionsLoop (user_answers : AnsMap) :
    Nat → List Question → Canvas → ℤ → Canvas × ℤ
  | _, [], c, y => (c, y)
  | i, q :: qs, c, y =>
    let cy := renderQuestion user_answers i q c y
    renderQuestionsLoop user_answers (i + 1) qs cy.1 cy.2

/-- Round half to even, the rounding used by Python's float `.1f`
formatting on the report's score values. -/
def roundHalfEven (x : ℚ) : ℤ :=
  let fl := ⌊x⌋
  let fr := x - fl
  if fr < 1 / 2 then fl
  else if 1 / 2 < fr then fl + 1
  else if fl % 2 = 0 then fl else fl + 1

/-- `{v:.1f}` for the nonnegative score percentage. -/
def fmt1 (v : ℚ) : String :=
  let t := roundHalfEven (v * 10)
  toString (t / 10) ++ "." ++ toString (t % 10)

/-- `generate_pdf`: the header block (title, timestamp line, score
line, status line) followed by the per-question loop.  `timestamp`
stands for the `datetime.now()` text, which depends on the wall
clock. -/
def generate_pdf (timestamp : String) (questions : List Question)
    (user_answers : AnsMap) (correct total : Nat) (score_percentage : ℚ) : Canvas :=
  let y : ℤ := 742
  let c := (Canvas.new.setFont "Helvetica-Bold" 20).drawString 50 y "MCQ Quiz Results"
  let y := y - 25
  let c := (c.setFont "Helvetica" 10).drawString 50 y ("Generated on: " ++ timestamp)
  let y := y - 35
  let c := (c.setFont "Helvetica-Bold" 14).drawString 50 y
    ("Final Score: " ++ toString correct ++ "/" ++ toString total ++
      " (" ++ fmt1 score_percentage ++ "%)")
  let status :=
    if score_percentage ≥ 80 then "Excellent! 🌟"
    else if score_percentage ≥ 60 then "Good job! 👍"
    else "Keep practicing! 💪"
  let c := (c.setFont "Helvetica" 12).drawString 50 (y - 20) ("Status: " ++ status)
  let y := y - 50
  (renderQuestionsLoop user_answers 0 questions c y).1

set_option maxRecDepth 10000

/-! ## Scoring lemmas -/

/-- Index `iq.1` carries a recorded, truthy (nonempty) label equal to
the question's correct label. -/
def answeredCorrectly (ans : AnsMap) (iq : Nat × Question) : Bool :=
  match ansGet ans iq.1 with
  | some (some s) => s != "" && s == iq.2.correct_answer
  | _ => false

/-- Index `iq.1` is scored unanswered by the code: the answer is
absent, the `None` sentinel, or the (falsy) empty string. -/
def emptyOrUnanswered (ans : AnsMap) (iq : Nat × Question) : Bool :=
  match ansGet ans iq.1 with
  | some (some s) => s == ""
  | _ => true

/-- Index `iq.1` carries a recorded, truthy label different from the
correct one (scored neither correct nor unanswered). -/
def answeredWrongly (ans : AnsMap) (iq : Nat × Question) : Bool :=
  match ansGet ans iq.1 with
  | some (some s) => s != "" && s != iq.2.correct_answer
  | _ => false

/-- The specification's unanswered predicate: the recorded answer is
the sentinel, or no answer is recorded at all. -/
def sentinelOrAbsent (ans : AnsMap) (i : Nat) : Bool :=
  match ansGet ans i with
  | some (some _) => false
  | _ => true

theorem scoreStep_eq (ans : AnsMap) (acc : Nat × Nat) (iq : Nat × Question) :
    scoreStep ans acc iq =
      (acc.1 + (if answeredCorrectly ans iq then 1 else 0),
       acc.2 + (if emptyOrUnanswered ans iq then 1 else 0)) := by
  unfold scoreStep answeredCorrectly emptyOrUnanswered
  rcases h : ansGet ans iq.1 with _ | (_ | s)
  · simp [h]
  · simp [h]
  · by_cases hs : s = ""
    · subst hs; simp [h]
    · by_cases hc : s = iq.2.correct_answer
      · subst hc; simp [h, hs]
      · simp [h, hs, hc]

theorem scoreFold_eq (ans : AnsMap) (l : List (Nat × Question)) :
    ∀ acc : Nat × Nat,
      l.foldl (scoreStep ans) acc =
        (acc.1 + l.countP (answeredCorrectly ans),
         acc.2 + l.countP (emptyOrUnanswered ans)) := by
  induction l with
  | nil => intro acc; simp
  | cons x xs ih =>
    intro acc
    rw [List.foldl_cons, ih, scoreStep_eq]
    simp only [List.countP_cons, Prod.mk.injEq]
    constructor <;> omega

theorem calculate_score_eq_counts (qs : List Question) (ans : AnsMap) :
    calculate_score qs ans =
      (qs.enum.countP (answeredCorrectly ans), qs.length,
       qs.enum.countP (emptyOrUnanswered ans)) := by
  unfold calculate_score
  rw [scoreFold_eq]
  simp

theorem score_trichotomy (ans : AnsMap) (iq : Nat × Question) :
    (answeredCorrectly ans iq || answeredWrongly ans iq) = !(emptyOrUnanswered ans iq) := by
  unfold answeredCorrectly answeredWrongly emptyOrUnanswered
  rcases h : ansGet ans iq.1 with _ | (_ | s)
  · simp
  · simp
  · by_cases hs : s = ""
    · subst hs; simp
    · by_cases hc : s = iq.2.correct_answer
      · subst hc; simp [hs, bne]
      · have h1 : (s == "") = false := by simp [hs]
        have h2 : (s == iq.2.correct_answer) = false := by simp [hc]
        simp [h1, h2, bne]

theorem countP_score_partition (ans : AnsMap) (l : List (Nat × Question)) :
    l.countP (answeredCorrectly ans) + l.countP (answeredWrongly ans) +
      l.countP (emptyOrUnanswered ans) = l.length := by
  induction l with
  | nil => simp
  | cons x xs ih =>
    simp only [List.countP_cons, List.length_cons]
    have hone : (if answeredCorrectly ans x = true then 1 else 0) +
        (if answeredWrongly ans x = true then 1 else 0) +
        (if emptyOrUnanswered ans x = true then 1 else 0) = 1 := by
      unfold answeredCorrectly answeredWrongly emptyOrUnanswered
      rcases h : ansGet ans x.1 with _ | (_ | s)
      · simp
      · simp
      · by_cases hs : s = ""
        · subst hs; simp
        · by_cases hcx : s = x.2.correct_answer
          · subst hcx; simp [hs, bne]
          · have h1 : (s == "") = false := by simp [hs]
            have h2 : (s == x.2.correct_answer) = false := by simp [hcx]
            simp [h1, h2, bne]
    omega

/-! ## Claims C1 and C10 -/

/-- The three questions of the specification's concrete scenario
(correct answers A, C, D). -/
def scenarioQuestions : List Question :=
  [⟨"First scenario question?", [("A", "a1"), ("B", "b1"), ("C", "c1"), ("D", "d1")], "A",
      "Explanation one, long enough for checks."⟩,
   ⟨"Second scenario question?", [("A", "a2"), ("B", "b2"), ("C", "c2"), ("D", "d2")], "C",
      "Explanation two, long enough for checks."⟩,
   ⟨"Third scenario question?", [("A", "a3"), ("B", "b3"), ("C", "c3"), ("D", "d3")], "D",
      "Explanation three, long enough for checks."⟩]

/-- The scenario selections `{0: "A", 1: "B", 2: sentinel}`. -/
def scenarioAnswers : AnsMap := [(0, some "A"), (1, some "B"), (2, none)]

/-- C1 (amended): `score()` returns `(correct, total, unanswered)`
with `total = len(qs)`; `correct` counts exactly the indices with a
recorded non-sentinel **nonempty** answer equal to the question's
correct label; `unanswered` counts exactly the indices whose answer is
the sentinel, absent, **or the empty string** (which is falsy in the
`if i in user_answers and user_answers[i]` guard); the percentage is
`100 * correct / total`, with `total = 0` giving `0`; and the concrete
scenario yields `(1, 3, 1)` with percentage `100/3 ≈ 33.3`. -/
theorem claim_C1_amended :
    (∀ (qs : List Question) (ans : AnsMap),
        calculate_score qs ans =
          (qs.enum.countP (answeredCorrectly ans), qs.length,
           qs.enum.countP (emptyOrUnanswered ans)))
    ∧ (∀ correct total : Nat,
        score_percentage correct total =
          if total = 0 then 0 else 100 * (correct : ℚ) / (total : ℚ))
    ∧ calculate_score scenarioQuestions scenarioAnswers = (1, 3, 1)
    ∧ score_percentage 1 3 = 100 / 3 := by
  refine ⟨calculate_score_eq_counts, ?_, by decide, ?_⟩
  · intro c t
    unfold score_percentage
    by_cases h : t = 0
    · simp [h]
    · have : 0 < t := Nat.pos_of_ne_zero h
      rw [if_pos this, if_neg h]
      ring
  · unfold score_percentage
    norm_num

/-- A question whose four option labels include the empty string (a
shape `validate_question` accepts, since it only counts labels). -/
def ceQuestionC1 : Question :=
  ⟨"Pick the best option now.",
   [("", "None of these"), ("B", "Second"), ("C", "Third"), ("D", "Fourth")], "B",
   "The second option is the correct one here."⟩

/-- C1 counterexample: with the empty-string label recorded as the
answer, the code scores the index unanswered (`unanswered = 1`), while
the claim's "sentinel or absent" count for the same state is `0` — the
recorded `""` is neither the sentinel nor absent. -/
theorem claim_C1_counterexample :
    (calculate_score [ceQuestionC1] [(0, some "")]).2.2 = 1
    ∧ (List.range 1).countP (sentinelOrAbsent [(0, some "")]) = 0
    ∧ ansGet [(0, some "")] 0 = some (some "") := by decide

/-- C10 (amended): `correct + incorrect + unanswered` partitions the
question total, where a recorded answer counts as answered (correct or
incorrect) exactly when it is non-null **and nonempty** — a recorded
empty string is falsy in the scoring guard and is scored unanswered,
as are the `None` sentinel and absent entries; a nonempty answer
different from the correct label counts as incorrect even when it is
not one of the question's option labels. -/
theorem claim_C10_amended :
    ∀ (qs : List Question) (ans : AnsMap) (i : Nat) (q : Question),
      (calculate_score qs ans).1 + qs.enum.countP (answeredWrongly ans) +
          (calculate_score qs ans).2.2 = (calculate_score qs ans).2.1
      ∧ (answeredCorrectly ans (i, q) || answeredWrongly ans (i, q)) =
          !(emptyOrUnanswered ans (i, q)) := by
  intro qs ans i q
  refine ⟨?_, score_trichotomy ans (i, q)⟩
  rw [calculate_score_eq_counts]
  have h := countP_score_partition ans qs.enum
  have hlen : qs.enum.length = qs.length := List.enum_length
  dsimp only
  omega

/-- A question with an empty-string option label and correct answer C. -/
def ceQuestionC10 : Question :=
  ⟨"Choose one of the options.",
   [("", "Empty label"), ("B", "Second"), ("C", "Third"), ("D", "Fourth")], "C",
   "The third option is the correct one indeed."⟩

/-- C10 counterexample: the recorded answer `""` at index 0 is
non-null and differs from the correct label `"C"`, so the claim says
it counts as incorrect; the code scores it unanswered:
`calculate_score` returns `(0, 1, 1)`, not `(0, 1, 0)`. -/
theorem claim_C10_counterexample :
    calculate_score [ceQuestionC10] [(0, some "")] = (0, 1, 1)
    ∧ ansGet [(0, some "")] 0 = some (some "")
    ∧ some "" ≠ (none : Option String)
    ∧ "" ≠ "C" := by decide

/-! ## Claim C7 -/

/-- C7 (amended): `reset_quiz` empties the question list, clears both
answer dicts, resets the submitted and practice flags, returns the
generation counter to its initial value and clears the fingerprint
set — but it does **not** touch `pdf_content`: the stored source text
survives a reset. -/
theorem claim_C7_amended :
    ∀ s : Session,
      reset_quiz s = ⟨[], false, [], false, [], s.pdf_content, 0, []⟩ := by
  intro s; rfl

/-- C7 counterexample: after a reset from a populated session, the
stored source text is still present, not destroyed. -/
theorem claim_C7_counterexample :
    (reset_quiz ⟨[], true, [(0, some "A")], true, [], some "uploaded source text", 2, ["fp"]⟩).pdf_content
        = some "uploaded source text"
    ∧ some "uploaded source text" ≠ (none : Option String) := by decide

/-! ## Claim C2 -/

theorem pyJsonLoads_empty : pyJsonLoads (String.mk []) = none := rfl

/-- A source text comfortably above the fifty-character content
check. -/
def longContent : String :=
  "This content string is certainly long enough to pass the fifty character check."

/-- C2: the parsing stage fails exactly when, after stripping the
code-fence markers, no `{` is present (including for a whitespace-only
response) or the slice from the first `{` to the last `}` does not
parse as JSON; a fenced response with trailing prose still has its
embedded object extracted; and a failed parsing stage makes
`generate_mcqs` report an error and return no questions instead of
raising. -/
theorem claim_C2 :
    (∀ raw : String,
        parseStage raw = none ↔
          (pyFindChar (stripFences raw.data) '\x7b' = none ∨
            pyJsonLoads (String.mk (braceSlice (stripFences raw.data))) = none))
    ∧ parseStage "```json\n\x7b\"questions\": []\x7d\n```\nThanks for using the tool." =
        some (JValue.obj [("questions", JValue.arr [])])
    ∧ (∀ (content : String) (num_questions : Nat) (raw : String),
        parseStage raw = none →
          (generate_mcqs content num_questions raw).questions = []
          ∧ (generate_mcqs content num_questions raw).errMsg.isSome = true) := by
  refine ⟨?_, by rfl, ?_⟩
  · intro raw
    unfold parseStage clean_json_response braceSlice
    cases hf : pyFindChar (stripFences raw.data) '\x7b' with
    | none => simp [hf]
    | some s =>
      cases hr : pyRfindChar (stripFences raw.data) '\x7d' with
      | none => simp [hf, hr]; rfl
      | some e => simp [hf, hr]
  · intro content n raw h
    unfold generate_mcqs
    by_cases hlen : (pyStrip content).length < 50
    · simp [hlen]
    · simp only [if_neg hlen]
      unfold parseStage at h
      cases hc : clean_json_response raw with
      | none => simp [hc]
      | some t =>
        rw [hc] at h
        dsimp only at h
        simp [h]

/-- Witness for C2: a brace-free model response produces an error
report and an empty question list. -/
theorem claim_C2_witness :
    (generate_mcqs longContent 5 "The model returned no JSON here.").questions = []
    ∧ (generate_mcqs longContent 5 "The model returned no JSON here.").errMsg.isSome = true :=
  claim_C2.2.2 longContent 5 "The model returned no JSON here." (by rfl)

/-! ## Claim C3 -/

theorem pyContainsAll_obj (kvs : List (String × JValue)) (ks : List String) :
    pyContainsAll (JValue.obj kvs) ks =
      some (ks.all (fun k => kvs.any (fun p => p.1 == k))) := by
  induction ks with
  | nil => rfl
  | cons k ks ih =>
    simp only [pyContainsAll, pyContains, List.all_cons]
    cases h : kvs.any (fun p => p.1 == k)
    · simp
    · simp [ih]

theorem find?_of_any (kvs : List (String × JValue)) (k : String)
    (h : kvs.any (fun p => p.1 == k) = true) :
    ∃ p, kvs.find? (fun p => p.1 == k) = some p := by
  rw [List.any_eq_true] at h
  obtain ⟨x, hx, hpx⟩ := h
  have hs : (kvs.find? (fun p => p.1 == k)).isSome := by
    rw [List.find?_isSome]
    exact ⟨x, hx, hpx⟩
  exact Option.isSome_iff_exists.mp hs

/-- Lookup on an object through `pyGetItem`, given the matching
entry. -/
theorem pyGetItem_obj_eq (kvs : List (String × JValue)) (k : String)
    (p : String × JValue) (hf : kvs.find? (fun p => p.1 == k) = some p) :
    pyGetItem (JValue.obj kvs) k = some p.2 := by
  simp [pyGetItem, hf]

/-- Acceptance by `validate_question`, when it does not raise, is
exactly the specification's Question invariant. -/
theorem validate_eq_invariant :
    ∀ (q : JValue) (b : Bool),
      validate_question q = some b → (b = true ↔ questionInvariantB q = true) := by
  intro q b hv
  cases q with
  | null => simp [validate_question, pyContainsAll, pyContains] at hv
  | bool _ => simp [validate_question, pyContainsAll, pyContains] at hv
  | num _ => simp [validate_question, pyContainsAll, pyContains] at hv
  | str s =>
    unfold validate_question at hv
    cases hall : pyContainsAll (JValue.str s) ["question", "options", "correct_answer", "explanation"] with
    | none => rw [hall] at hv; exact absurd hv (by simp)
    | some hb =>
      rw [hall] at hv
      cases hb
      · dsimp only at hv
        simp only [Option.some.injEq] at hv
        subst hv
        simp [questionInvariantB]
      · dsimp only at hv
        simp [pyGetItem] at hv
  | arr xs =>
    unfold validate_question at hv
    cases hall : pyContainsAll (JValue.arr xs) ["question", "options", "correct_answer", "explanation"] with
    | none => rw [hall] at hv; exact absurd hv (by simp)
    | some hb =>
      rw [hall] at hv
      cases hb
      · dsimp only at hv
        simp only [Option.some.injEq] at hv
        subst hv
        simp [questionInvariantB]
      · dsimp only at hv
        simp [pyGetItem] at hv
  | obj kvs =>
    unfold validate_question at hv
    rw [pyContainsAll_obj] at hv
    cases hA : ["question", "options", "correct_answer", "explanation"].all
        (fun k => kvs.any (fun p => p.1 == k)) with
    | false =>
      rw [hA] at hv
      dsimp only at hv
      simp only [Option.some.injEq] at hv
      subst hv
      simp [questionInvariantB, hA]
    | true =>
      rw [hA] at hv
      dsimp only at hv
      have hA2 := hA
      simp only [List.all_cons, List.all_nil, Bool.and_true, Bool.and_eq_true] at hA2
      obtain ⟨hkQ, hkO, hkC, hkE⟩ := hA2
      obtain ⟨pO, hfO⟩ := find?_of_any kvs "options" hkO
      obtain ⟨pC, hfC⟩ := find?_of_any kvs "correct_answer" hkC
      obtain ⟨pQ, hfQ⟩ := find?_of_any kvs "question" hkQ
      obtain ⟨pE, hfE⟩ := find?_of_any kvs "explanation" hkE
      rw [pyGetItem_obj_eq kvs "options" pO hfO] at hv
      dsimp only at hv
      cases hpO : pO.2 with
      | obj opts =>
        rw [hpO] at hv
        dsimp only at hv
        by_cases h4 : opts.length = 4
        · rw [if_neg (by simp [h4])] at hv
          rw [pyGetItem_obj_eq kvs "correct_answer" pC hfC] at hv
          dsimp only at hv
          cases hdc : pyDictContainsVal opts pC.2 with
          | none => rw [hdc] at hv; exact absurd hv (by simp)
          | some cb =>
            rw [hdc] at hv
            cases cb
            · dsimp only at hv
              simp only [Option.some.injEq] at hv
              subst hv
              have hany : opts.any (fun p => pyEq pC.2 (JValue.str p.1)) = false := by
                rcases hc2 : pC.2 <;> rw [hc2] at hdc <;>
                  simp only [pyDictContainsVal, Option.some.injEq] at hdc <;>
                  first
                  | exact hdc
                  | exact absurd hdc (by simp)
              simp [questionInvariantB, hA, hfO, hfC, hpO, hany]
            · dsimp only at hv
              rw [pyGetItem_obj_eq kvs "question" pQ hfQ] at hv
              dsimp only at hv
              cases hlQ : pyLen pQ.2 with
              | none => rw [hlQ] at hv; exact absurd hv (by simp)
              | some lq =>
                rw [hlQ] at hv
                dsimp only at hv
                have hanyT : opts.any (fun p => pyEq pC.2 (JValue.str p.1)) = true := by
                  rcases hc2 : pC.2 <;> rw [hc2] at hdc <;>
                    simp only [pyDictContainsVal, Option.some.injEq] at hdc <;>
                    first
                    | exact hdc
                    | exact absurd hdc (by simp)
                by_cases h10 : lq < 10
                · rw [if_pos h10] at hv
                  simp only [Option.some.injEq] at hv
                  subst hv
                  simp [questionInvariantB, hA, hfO, hfC, hfQ, hpO, hlQ]
                  omega
                · rw [if_neg h10] at hv
                  rw [pyGetItem_obj_eq kvs "explanation" pE hfE] at hv
                  dsimp only at hv
                  cases hlE : pyLen pE.2 with
                  | none => rw [hlE] at hv; exact absurd hv (by simp)
                  | some le =>
                    rw [hlE] at hv
                    dsimp only at hv
                    simp only [Option.some.injEq] at hv
                    subst hv
                    rw [Nat.not_lt] at h10
                    simp [questionInvariantB, hA, hfO, hfC, hfQ, hfE, hpO, h4,
                      hanyT, hlQ, hlE, h10]
        · rw [if_pos (by simp [h4])] at hv
          simp only [Option.some.injEq] at hv
          subst hv
          simp [questionInvariantB, hfO, hpO, h4]
      | null =>
        rw [hpO] at hv
        dsimp only at hv
        simp only [Option.some.injEq] at hv
        subst hv
        simp [questionInvariantB, hfO, hpO]
      | bool bb =>
        rw [hpO] at hv
        dsimp only at hv
        simp only [Option.some.injEq] at hv
        subst hv
        simp [questionInvariantB, hfO, hpO]
      | num nn =>
        rw [hpO] at hv
        dsimp only at hv
        simp only [Option.some.injEq] at hv
        subst hv
        simp [questionInvariantB, hfO, hpO]
      | str ss =>
        rw [hpO] at hv
        dsimp only at hv
        simp only [Option.some.injEq] at hv
        subst hv
        simp [questionInvariantB, hfO, hpO]
      | arr aa =>
        rw [hpO] at hv
        dsimp only at hv
        simp only [Option.some.injEq] at hv
        subst hv
        simp [questionInvariantB, hfO, hpO]

theorem collectValidated_filter :
    ∀ entries : List JValue,
      (∀ q ∈ entries, (validate_question q).isSome = true) →
      collectValidated entries =
        some (entries.filter (fun q => validate_question q == some true)) := by
  intro entries
  induction entries with
  | nil => intro _; rfl
  | cons q rest ih =>
    intro h
    have hq := h q (List.mem_cons_self q rest)
    have ih2 := ih (fun x hx => h x (List.mem_cons_of_mem q hx))
    cases hv : validate_question q with
    | none => rw [hv] at hq; simp at hq
    | some b =>
      cases b
      · simp [collectValidated, hv, List.filter_cons, ih2]
      · simp [collectValidated, hv, List.filter_cons, ih2]

theorem collectValidated_all_true :
    ∀ entries : List JValue,
      (∀ q ∈ entries, validate_question q = some true) →
      collectValidated entries = some entries := by
  intro entries
  induction entries with
  | nil => intro _; rfl
  | cons q rest ih =>
    intro h
    have hq := h q (List.mem_cons_self q rest)
    have ih2 := ih (fun x hx => h x (List.mem_cons_of_mem q hx))
    simp [collectValidated, hq, ih2]

/-- C3 (amended): for every candidate entry on which validation
completes without raising, acceptance is exactly the conjunction of
the Question invariants (required fields present, `options` a mapping
with exactly 4 labels, correct label among them, prompt length at
least 10, explanation length at least 20), and entries rejected this
way are dropped while the round succeeds with the remaining accepted
entries in order.  (Entries that make a check raise a `TypeError` —
non-mappings that pass the key test, unhashable correct answers,
length-less field values — abort the whole round instead; see the
counterexample.) -/
theorem claim_C3_amended :
    (∀ (q : JValue) (b : Bool),
        validate_question q = some b → (b = true ↔ questionInvariantB q = true))
    ∧ (∀ entries : List JValue,
        (∀ q ∈ entries, (validate_question q).isSome = true) →
        collectValidated entries =
          some (entries.filter (fun q => validate_question q == some true))) :=
  ⟨validate_eq_invariant, collectValidated_filter⟩

/-- The parsed form of a structurally valid generated question. -/
def goodQJ : JValue :=
  JValue.obj
    [("question", JValue.str "What is the capital of France?"),
     ("options", JValue.obj
        [("A", JValue.str "Paris"), ("B", JValue.str "Lyon"),
         ("C", JValue.str "Nice"), ("D", JValue.str "Lille")]),
     ("correct_answer", JValue.str "A"),
     ("explanation", JValue.str "Paris is the capital city of France.")]

/-- Witness for C3: the valid entry is accepted and equivalent to the
invariant; a string entry without the required keys is dropped and the
loop still succeeds. -/
theorem claim_C3_witness :
    (true = true ↔ questionInvariantB goodQJ = true)
    ∧ collectValidated [goodQJ, JValue.str "nope"] =
        some ([goodQJ, JValue.str "nope"].filter
          (fun q => validate_question q == some true)) :=
  ⟨claim_C3_amended.1 goodQJ true (by rfl),
   claim_C3_amended.2 [goodQJ, JValue.str "nope"] (by decide)⟩

/-- A generation response whose `questions` array holds one valid
entry followed by the bare JSON literal `true`. -/
def badEntryResponse : String :=
  "\x7b\"questions\": [\x7b\"question\": \"What is the capital of France?\", \"options\": \x7b\"A\": \"Paris\", \"B\": \"Lyon\", \"C\": \"Nice\", \"D\": \"Lille\"\x7d, \"correct_answer\": \"A\", \"explanation\": \"Paris is the capital city of France.\"\x7d, true]\x7d"

/-- C3 counterexample: the entry `true` fails the invariants, so the
claim says it is dropped and the round succeeds with the remaining
valid entry; instead, `'question' in True` raises a `TypeError`, the
round's `except` clause reports an error, and the returned list is
empty — not the surviving valid question. -/
theorem claim_C3_counterexample :
    questionInvariantB (JValue.bool true) = false
    ∧ validate_question (JValue.bool true) = none
    ∧ validate_question goodQJ = some true
    ∧ (generate_mcqs longContent 2 badEntryResponse).questions = []
    ∧ (generate_mcqs longContent 2 badEntryResponse).errMsg = some GenErr.typeError :=
  ⟨rfl, rfl, rfl, rfl, rfl⟩

/-! ## Claim C4 -/

theorem pyGetItem_some_contains (x : JValue) (k : String) (v : JValue)
    (h : pyGetItem x k = some v) : pyContains x k = some true := by
  cases x with
  | obj kvs =>
    unfold pyGetItem at h
    dsimp only at h
    cases hf : kvs.find? (fun p => p.1 == k) with
    | none => rw [hf] at h; simp at h
    | some p =>
      have hmem := List.mem_of_find?_eq_some hf
      have hpk := List.find?_some hf
      simp only [pyContains, Option.some.injEq, List.any_eq_true]
      exact ⟨p, hmem, hpk⟩
  | null => simp [pyGetItem] at h
  | bool _ => simp [pyGetItem] at h
  | num _ => simp [pyGetItem] at h
  | str _ => simp [pyGetItem] at h
  | arr _ => simp [pyGetItem] at h

/-- C4: a well-formed response whose `questions` array holds exactly
the entries `entries`, all structurally valid, makes `generate_mcqs`
return exactly those entries in order (round-trip); the non-fatal
shortfall warning is shown exactly when fewer were accepted than
requested, and no error is reported. -/
theorem claim_C4 :
    ∀ (content response : String) (num_questions : Nat)
      (data : JValue) (entries : List JValue),
      ¬ (pyStrip content).length < 50 →
      parseStage response = some data →
      pyGetItem data "questions" = some (JValue.arr entries) →
      (∀ q ∈ entries, validate_question q = some true) →
      (generate_mcqs content num_questions response).questions = entries
      ∧ (generate_mcqs content num_questions response).errMsg = none
      ∧ (generate_mcqs content num_questions response).warned =
          decide (entries.length < num_questions) := by
  intro content response n data entries hlen hparse hget hvalid
  unfold generate_mcqs
  rw [if_neg hlen]
  unfold parseStage at hparse
  cases hc : clean_json_response response with
  | none => rw [hc] at hparse; exact absurd hparse (by simp)
  | some t =>
    rw [hc] at hparse
    dsimp only at hparse
    dsimp only
    rw [hparse]
    dsimp only
    rw [pyGetItem_some_contains data "questions" (JValue.arr entries) hget]
    dsimp only
    rw [hget]
    dsimp only [iterEntries]
    rw [collectValidated_all_true entries hvalid]
    exact ⟨rfl, rfl, rfl⟩

/-- The response text whose parse is `goodQJ` under a `questions`
key. -/
def goodResponse : String :=
  "\x7b\"questions\": [\x7b\"question\": \"What is the capital of France?\", \"options\": \x7b\"A\": \"Paris\", \"B\": \"Lyon\", \"C\": \"Nice\", \"D\": \"Lille\"\x7d, \"correct_answer\": \"A\", \"explanation\": \"Paris is the capital city of France.\"\x7d]\x7d"

/-- The parsed top-level object of `goodResponse`. -/
def goodData : JValue := JValue.obj [("questions", JValue.arr [goodQJ])]

/-- Witness for C4: the one-question response round-trips, with no
warning when exactly the requested number was accepted. -/
theorem claim_C4_witness :
    (generate_mcqs longContent 1 goodResponse).questions = [goodQJ]
    ∧ (generate_mcqs longContent 1 goodResponse).errMsg = none
    ∧ (generate_mcqs longContent 1 goodResponse).warned =
        decide (([goodQJ] : List JValue).length < 1) :=
  claim_C4 longContent goodResponse 1 goodData [goodQJ] (by decide) (by rfl) (by rfl)
    (by decide)

/-! ## Claim C8 -/

/-- Failure of the parsing or schema stage makes `generate_mcqs`
return an empty list together with an error message. -/
theorem generate_mcqs_failure_empty (content : String) (n : Nat) (response : String)
    (h : clean_json_response response = none
      ∨ (∃ t, clean_json_response response = some t ∧ pyJsonLoads t = none)
      ∨ (∃ t d, clean_json_response response = some t ∧ pyJsonLoads t = some d ∧
          pyContains d "questions" ≠ some true)) :
    (generate_mcqs content n response).questions = []
    ∧ (generate_mcqs content n response).errMsg.isSome = true := by
  unfold generate_mcqs
  by_cases hlen : (pyStrip content).length < 50
  · simp [hlen]
  · rw [if_neg hlen]
    rcases h with h | ⟨t, ht, hp⟩ | ⟨t, d, ht, hp, hq⟩
    · rw [h]; exact ⟨rfl, rfl⟩
    · rw [ht]; dsimp only; rw [hp]; exact ⟨rfl, rfl⟩
    · rw [ht]; dsimp only; rw [hp]; dsimp only
      cases hqc : pyContains d "questions" with
      | none => exact ⟨rfl, rfl⟩
      | some b =>
        cases b
        · exact ⟨rfl, rfl⟩
        · exact absurd hqc hq

/-- C8: a failed generation round — malformed response, missing
`questions` key, or zero accepted questions — leaves every session
key (question list, answers, submitted flag, generation counter,
fingerprint set, and the rest) exactly as it was, because `main`
mutates only under `if questions:`; and the parse/schema failures are
reported as error messages by `generate_mcqs` rather than
propagating. -/
theorem claim_C8 :
    ∀ (content response : String) (num_questions : Nat) (s : Session),
      (clean_json_response response = none
        ∨ (∃ t, clean_json_response response = some t ∧ pyJsonLoads t = none)
        ∨ (∃ t d, clean_json_response response = some t ∧ pyJsonLoads t = some d ∧
            pyContains d "questions" ≠ some true)
        ∨ (generate_mcqs content num_questions response).questions = []) →
      startRound s content num_questions response = s
      ∧ ((clean_json_response response = none
          ∨ (∃ t, clean_json_response response = some t ∧ pyJsonLoads t = none)
          ∨ (∃ t d, clean_json_response response = some t ∧ pyJsonLoads t = some d ∧
              pyContains d "questions" ≠ some true)) →
        (generate_mcqs content num_questions response).errMsg.isSome = true) := by
  intro content response n s h
  have hempty : (generate_mcqs content n response).questions = [] := by
    rcases h with h | h | h | h
    · exact (generate_mcqs_failure_empty content n response (Or.inl h)).1
    · exact (generate_mcqs_failure_empty content n response (Or.inr (Or.inl h))).1
    · exact (generate_mcqs_failure_empty content n response (Or.inr (Or.inr h))).1
    · exact h
  refine ⟨?_, fun h3 => (generate_mcqs_failure_empty content n response h3).2⟩
  simp [startRound, hempty]

/-- A populated mid-practice session used by the C8 witness. -/
def sessW : Session :=
  ⟨[⟨"Witness question text?", [("A", "x"), ("B", "y"), ("C", "z"), ("D", "w")], "A",
      "A long enough witness explanation."⟩],
   true, [(0, some "A")], true, [], some "src", 2, ["fp"]⟩

/-- Witness for C8: a prose-only response leaves the session
untouched and produces an error message. -/
theorem claim_C8_witness :
    startRound sessW longContent 5 "The model produced prose with no JSON object." = sessW
    ∧ (generate_mcqs longContent 5
        "The model produced prose with no JSON object.").errMsg.isSome = true :=
  ⟨(claim_C8 longContent "The model produced prose with no JSON object." 5 sessW
      (Or.inl (by rfl))).1,
   (claim_C8 longContent "The model produced prose with no JSON object." 5 sessW
      (Or.inl (by rfl))).2 (Or.inl (by rfl))⟩

/-! ## Claim C6 -/

theorem pySplitAux_wf :
    ∀ (cs : List Char) (acc : List Char),
      (∀ c ∈ acc, isPySpace c = false) →
      ∀ w ∈ pySplitAux cs acc, w ≠ [] ∧ ∀ c ∈ w, isPySpace c = false := by
  intro cs
  induction cs with
  | nil =>
    intro acc hacc w hw
    unfold pySplitAux at hw
    by_cases he : acc.isEmpty
    · simp [he] at hw
    · rw [if_neg he] at hw
      rcases List.mem_singleton.mp hw with rfl
      refine ⟨?_, fun c hc => hacc c (List.mem_reverse.mp hc)⟩
      intro hnil
      exact he (by simp [List.isEmpty_iff, ← List.reverse_eq_nil_iff, hnil])
  | cons c cs ih =>
    intro acc hacc w hw
    unfold pySplitAux at hw
    cases hsp : isPySpace c with
    | true =>
      rw [hsp] at hw
      simp only [if_true] at hw
      by_cases he : acc.isEmpty
      · rw [if_pos he] at hw
        exact ih [] (by simp) w hw
      · rw [if_neg he] at hw
        rcases List.mem_cons.mp hw with rfl | hw
        · refine ⟨?_, fun x hx => hacc x (List.mem_reverse.mp hx)⟩
          intro hnil
          exact he (by simp [List.isEmpty_iff, ← List.reverse_eq_nil_iff, hnil])
        · exact ih [] (by simp) w hw
    | false =>
      rw [hsp] at hw
      rw [if_neg (by simp)] at hw
      refine ih (c :: acc) ?_ w hw
      intro x hx
      rcases List.mem_cons.mp hx with rfl | hx
      · exact hsp
      · exact hacc x hx

theorem pySplit_wf (s : String) :
    ∀ w ∈ pySplit s, w ≠ "" ∧ ∀ c ∈ w.data, isPySpace c = false := by
  intro w hw
  unfold pySplit at hw
  rcases List.mem_map.mp hw with ⟨l, hl, rfl⟩
  obtain ⟨hne, hch⟩ := pySplitAux_wf s.data [] (by simp) l hl
  refine ⟨?_, fun c hc => hch c hc⟩
  intro h
  exact hne (congrArg String.data h)

theorem pyStrip_word_space (w : String) (hne : w ≠ "")
    (hch : ∀ c ∈ w.data, isPySpace c = false) : pyStrip (w ++ " ") = w := by
  unfold pyStrip
  have hd : (w ++ " ").data = w.data ++ [' '] := by
    simp [String.data_append]
  rw [hd]
  have hwd : w.data ≠ [] := fun h => hne (String.ext h)
  cases hwdc : w.data with
  | nil => exact absurd hwdc hwd
  | cons c rest =>
    have hc0 : isPySpace c = false := hch c (by rw [hwdc]; exact List.mem_cons_self c rest)
    rw [← hwdc]
    have h1 : (w.data ++ [' ']).dropWhile isPySpace = w.data ++ [' '] := by
      rw [hwdc]
      simp [List.dropWhile_cons, hc0]
    rw [h1]
    have h2 : (w.data ++ [' ']).reverse = ' ' :: w.data.reverse := by
      simp
    rw [h2]
    have h3 : (' ' :: w.data.reverse).dropWhile isPySpace = w.data.reverse.dropWhile isPySpace := by
      simp [List.dropWhile_cons, isPySpace]
    rw [h3]
    cases hrev : w.data.reverse with
    | nil =>
      rw [List.reverse_eq_nil_iff] at hrev
      exact absurd hrev hwd
    | cons d t =>
      have hd0 : isPySpace d = false := by
        apply hch
        rw [← List.mem_reverse, hrev]
        exact List.mem_cons_self d t
      rw [List.dropWhile_cons, hd0]
      simp only [Bool.false_eq_true, if_false]
      apply String.ext
      simp [← hrev]

theorem sum_map_dropWhile_le (f : Char → Nat) (p : Char → Bool) (l : List Char) :
    ((l.dropWhile p).map f).sum ≤ (l.map f).sum :=
  List.Sublist.sum_le_sum ((List.dropWhile_sublist p).map f) (fun _ _ => Nat.zero_le _)

theorem stringWidthM_strip_le (fs : Nat) (s : String) :
    stringWidthM fs (pyStrip s) ≤ stringWidthM fs s := by
  unfold stringWidthM pyStrip
  apply Nat.mul_le_mul_right
  calc (((((s.data.dropWhile isPySpace).reverse).dropWhile isPySpace).reverse).map charWidthUnits).sum
      = (((((s.data.dropWhile isPySpace).reverse).dropWhile isPySpace)).map charWidthUnits).sum := by
        rw [List.map_reverse, List.sum_reverse]
    _ ≤ ((((s.data.dropWhile isPySpace).reverse)).map charWidthUnits).sum :=
        sum_map_dropWhile_le charWidthUnits isPySpace _
    _ = (((s.data.dropWhile isPySpace)).map charWidthUnits).sum := by
        rw [List.map_reverse, List.sum_reverse]
    _ ≤ ((s.data).map charWidthUnits).sum :=
        sum_map_dropWhile_le charWidthUnits isPySpace _

theorem wrapAux_width (fs mw : Nat) (text : String) :
    ∀ (ws lines : List String) (line : String),
      (∀ w ∈ ws, w ∈ pySplit text) →
      (∀ ln ∈ lines, stringWidthM fs ln < mw ∨ ln ∈ pySplit text) →
      (line = "" ∨ stringWidthM fs line < mw ∨ ∃ w ∈ pySplit text, line = w ++ " ") →
      ∀ ln ∈ wrapAux fs mw ws lines line,
        stringWidthM fs ln < mw ∨ ln ∈ pySplit text := by
  intro ws
  induction ws with
  | nil =>
    intro lines line hws hlines hline ln hln
    unfold wrapAux at hln
    by_cases hne : line ≠ ""
    · rw [if_pos (by simpa using hne)] at hln
      rcases List.mem_append.mp hln with h | h
      · exact hlines ln h
      · rcases List.mem_singleton.mp h with rfl
        rcases hline with rfl | hw | ⟨w, hwmem, rfl⟩
        · exact absurd rfl hne
        · exact Or.inl (lt_of_le_of_lt (stringWidthM_strip_le fs line) hw)
        · obtain ⟨hwne, hwch⟩ := pySplit_wf text w hwmem
          rw [pyStrip_word_space w hwne hwch]
          exact Or.inr hwmem
    · rw [if_neg (by simpa using hne)] at hln
      exact hlines ln hln
  | cons w ws ih =>
    intro lines line hws hlines hline ln hln
    unfold wrapAux at hln
    by_cases hlt : stringWidthM fs (line ++ w ++ " ") < mw
    · rw [if_pos hlt] at hln
      exact ih lines (line ++ w ++ " ")
        (fun x hx => hws x (List.mem_cons_of_mem w hx)) hlines (Or.inr (Or.inl hlt)) ln hln
    · rw [if_neg hlt] at hln
      have hwm : w ∈ pySplit text := hws w (List.mem_cons_self w ws)
      by_cases hne : line ≠ ""
      · rw [if_pos (by simpa using hne)] at hln
        refine ih (lines ++ [pyStrip line]) (w ++ " ")
          (fun x hx => hws x (List.mem_cons_of_mem w hx)) ?_
          (Or.inr (Or.inr ⟨w, hwm, rfl⟩)) ln hln
        intro x hx
        rcases List.mem_append.mp hx with h | h
        · exact hlines x h
        · rcases List.mem_singleton.mp h with rfl
          rcases hline with rfl | hw2 | ⟨w2, hw2mem, rfl⟩
          · exact absurd rfl hne
          · exact Or.inl (lt_of_le_of_lt (stringWidthM_strip_le fs line) hw2)
          · obtain ⟨hw2ne, hw2ch⟩ := pySplit_wf text w2 hw2mem
            rw [pyStrip_word_space w2 hw2ne hw2ch]
            exact Or.inr hw2mem
      · rw [if_neg (by simpa using hne)] at hln
        exact ih lines (w ++ " ")
          (fun x hx => hws x (List.mem_cons_of_mem w hx)) hlines
          (Or.inr (Or.inr ⟨w, hwm, rfl⟩)) ln hln

theorem wrapLines_width (fs mw : Nat) (text : String) :
    ∀ ln ∈ wrapLines fs mw text, stringWidthM fs ln < mw ∨ ln ∈ pySplit text := by
  intro ln h
  exact wrapAux_width fs mw text (pySplit text) [] "" (fun w hw => hw) (by simp)
    (Or.inl rfl) ln h

/-- C6: every line the wrapper emits either measures strictly under
the width budget — by actual Helvetica glyph measurement, additive in
the glyph advances — or is a single word of the input emitted as one
oversized line; and the decision is glyph-based, not
character-counting: two texts of equal character count wrap to
different line counts when their glyphs are narrow (`i`, 222/1000 em)
versus wide (`m`, 833/1000 em). -/
theorem claim_C6 :
    (∀ (text : String) (mw fs : Nat),
        (wrapLines fs mw text).all
          (fun ln => decide (stringWidthM fs ln < mw) || (pySplit text).contains ln) = true)
    ∧ wrapLines 12 70000 "iiiiiiii mmmm" = ["iiiiiiii mmmm"]
    ∧ wrapLines 12 70000 "mmmmmmmm mmmm" = ["mmmmmmmm", "mmmm"]
    ∧ "iiiiiiii mmmm".length = "mmmmmmmm mmmm".length := by
  refine ⟨?_, by decide, by decide, by decide⟩
  intro text mw fs
  rw [List.all_eq_true]
  intro ln hln
  rw [Bool.or_eq_true]
  rcases wrapLines_width fs mw text ln hln with h | h
  · exact Or.inl (by simpa using h)
  · exact Or.inr (by simpa using h)

/-! ## Claim C5 -/

theorem events_setFont (c : Canvas) (n : String) (fs : Nat) :
    (c.setFont n fs).events = c.events := rfl

theorem events_setFill (c : Canvas) (col : RGB) :
    (c.setFillColorRGB col).events = c.events := rfl

theorem events_showPage (c : Canvas) : (c.showPage).events = c.events := rfl

theorem lb_drawString (c : Canvas) (x y : ℤ) (t : String)
    (h : ∀ ev ∈ c.events, (50 : ℤ) ≤ ev.y) (hy : (50 : ℤ) ≤ y) :
    ∀ ev ∈ (c.drawString x y t).events, (50 : ℤ) ≤ ev.y := by
  intro ev hev
  unfold Canvas.drawString at hev
  rcases List.mem_append.mp hev with h1 | h1
  · exact h ev h1
  · rcases List.mem_singleton.mp h1 with rfl
    exact hy

theorem lb_drawLinesLoop (fs : Nat) (x : ℤ) :
    ∀ (ls : List String) (c : Canvas) (y : ℤ),
      (∀ ev ∈ c.events, (50 : ℤ) ≤ ev.y) →
      ∀ ev ∈ (drawLinesLoop fs x ls c y).1.events, (50 : ℤ) ≤ ev.y := by
  intro ls
  induction ls with
  | nil => intro c y h; exact h
  | cons ln ls ih =>
    intro c y h
    rw [drawLinesLoop]
    by_cases hy : y < 50
    · rw [if_pos hy]
      dsimp only
      apply ih
      apply lb_drawString _ _ _ _ _ (by norm_num)
      simpa [events_setFont, events_showPage] using h
    · rw [if_neg hy]
      dsimp only
      apply ih
      exact lb_drawString _ _ _ _ h (by omega)

theorem lb_draw_wrapped_text (c : Canvas) (text : String) (x y : ℤ) (mw fs : Nat)
    (h : ∀ ev ∈ c.events, (50 : ℤ) ≤ ev.y) :
    ∀ ev ∈ (draw_wrapped_text c text x y mw fs).1.events, (50 : ℤ) ≤ ev.y := by
  unfold draw_wrapped_text
  apply lb_drawLinesLoop
  simpa [events_setFont] using h

theorem lb_renderOptionsLoop (ua : Option String) (ca : String) :
    ∀ (opts : List (String × String)) (c : Canvas) (y : ℤ),
      (∀ ev ∈ c.events, (50 : ℤ) ≤ ev.y) →
      ∀ ev ∈ (renderOptionsLoop ua ca opts c y).1.events, (50 : ℤ) ≤ ev.y := by
  intro opts
  induction opts with
  | nil => intro c y h; exact h
  | cons p rest ih =>
    obtain ⟨opt, text⟩ := p
    intro c y h
    rw [renderOptionsLoop]
    apply ih
    apply lb_draw_wrapped_text
    by_cases hy : y < 80
    · rw [if_pos hy]
      simpa [events_setFill, events_setFont, events_showPage] using h
    · rw [if_neg hy]
      simpa [events_setFill] using h

theorem lb_renderQuestion (ua : AnsMap) (i : Nat) (q : Question) (c : Canvas) (y : ℤ)
    (h : ∀ ev ∈ c.events, (50 : ℤ) ≤ ev.y) :
    ∀ ev ∈ (renderQuestion ua i q c y).1.events, (50 : ℤ) ≤ ev.y := by
  unfold renderQuestion
  dsimp only
  apply lb_draw_wrapped_text
  have hexp : ∀ (c2 : Canvas) (y2 : ℤ),
      (∀ ev ∈ c2.events, (50 : ℤ) ≤ ev.y) →
      ∀ ev ∈ ((if y2 < 60 then (c2.showPage, (742 : ℤ)) else (c2, y2)).1.drawString 60
          (if y2 < 60 then (c2.showPage, (742 : ℤ)) else (c2, y2)).2
          "Explanation:").setFont "Helvetica-Oblique" 9 |>.events, (50 : ℤ) ≤ ev.y := by
    intro c2 y2 h2
    by_cases hy2 : y2 < 60
    · rw [if_pos hy2]
      dsimp only
      simp only [events_setFont]
      apply lb_drawString _ _ _ _ _ (by norm_num)
      simpa [events_showPage] using h2
    · rw [if_neg hy2]
      dsimp only
      simp only [events_setFont]
      exact lb_drawString _ _ _ _ h2 (by omega)
  apply hexp
  simp only [events_setFill, events_setFont]
  apply lb_renderOptionsLoop
  simp only [events_setFont]
  apply lb_draw_wrapped_text
  simp only [events_setFont]
  by_cases hy : y < 150
  · rw [if_pos hy]
    dsimp only
    apply lb_drawString _ _ _ _ _ (by norm_num)
    simpa [events_setFont, events_showPage] using h
  · rw [if_neg hy]
    refine lb_drawString _ _ _ _ ?_ (by omega)
    simpa [events_setFont] using h

theorem lb_renderQuestionsLoop (ua : AnsMap) :
    ∀ (qs : List Question) (i : Nat) (c : Canvas) (y : ℤ),
      (∀ ev ∈ c.events, (50 : ℤ) ≤ ev.y) →
      ∀ ev ∈ (renderQuestionsLoop ua i qs c y).1.events, (50 : ℤ) ≤ ev.y := by
  intro qs
  induction qs with
  | nil => intro i c y h; exact h
  | cons q rest ih =>
    intro i c y h
    rw [renderQuestionsLoop]
    exact ih (i + 1) _ _ (lb_renderQuestion ua i q c y h)

theorem lb_generate_pdf (timestamp : String) (questions : List Question)
    (ua : AnsMap) (correct total : Nat) (pct : ℚ) :
    ∀ ev ∈ (generate_pdf timestamp questions ua correct total pct).events,
      (50 : ℤ) ≤ ev.y := by
  unfold generate_pdf
  try dsimp only
  refine lb_renderQuestionsLoop _ _ _ _ _ ?_
  refine lb_drawString _ _ _ _ ?_ (by norm_num)
  simp only [events_setFont]
  refine lb_drawString _ _ _ _ ?_ (by norm_num)
  simp only [events_setFont]
  refine lb_drawString _ _ _ _ ?_ (by norm_num)
  simp only [events_setFont]
  refine lb_drawString _ _ _ _ ?_ (by norm_num)
  simp only [events_setFont]
  intro ev hev
  simp [Canvas.new] at hev

/-- C5 (amended): before drawing any line, option or explanation the
engine checks the remaining vertical space against a minimum
threshold and on insufficiency emits a page break — so no drawn
text's baseline ever falls below the bottom margin `y = 50`, and each
line is drawn atomically on a single page.  The post-break cursor,
however, is *not* always the top margin: the outer per-question,
option and explanation checks reset to `height - margin = 742`, while
the line wrapper resets to the fixed `y = 750`, 8 points above the
top margin. -/
theorem claim_C5_amended :
    (∀ (timestamp : String) (questions : List Question) (user_answers : AnsMap)
        (correct total : Nat) (pct : ℚ),
        (generate_pdf timestamp questions user_answers correct total pct).events.all
          (fun ev => decide ((50 : ℤ) ≤ ev.y)) = true)
    ∧ (∀ (c : Canvas) (fs : Nat) (x : ℤ) (ln : String),
        drawLinesLoop fs x [ln] c 40 =
          ((((c.showPage).setFont "Helvetica" fs).drawString x 750 ln),
            750 - ((fs : ℤ) + 3))) := by
  constructor
  · intro ts qs ua c t p
    rw [List.all_eq_true]
    intro ev hev
    simpa using lb_generate_pdf ts qs ua c t p ev hev
  · intro c fs x ln
    rw [drawLinesLoop]
    rw [if_pos (by norm_num : (40 : ℤ) < 50)]
    rfl

/-- C5 counterexample: with 40 points of room the wrapper emits a
page break, but the next line is drawn at `y = 750`, not at the top
margin `height - margin = 792 - 50 = 742`. -/
theorem claim_C5_counterexample :
    ((draw_wrapped_text Canvas.new "hi" 50 40 512000 12).1.events.map
        (fun e => (e.page, e.y))) = [(1, 750)]
    ∧ (750 : ℤ) ≠ 792 - 50 := by decide

/-! ## Claim C9 -/

/-- The specification's four-case color rule for an option line,
stated flatly: affirmative when the option is the selected answer and
that answer is correct; negative when it is the selected answer and
incorrect; affirmative when it is the correct label, not selected,
and the user answered wrongly; neutral otherwise. -/
def specOptionColor (opt ua correct : String) : RGB :=
  if opt = ua ∧ ua = correct then greenC
  else if opt = ua ∧ ua ≠ correct then redC
  else if opt = correct ∧ opt ≠ ua ∧ ua ≠ correct then greenC
  else blackC

/-- C9: for every rendered option line with a recorded answer, the
code's nested color branches coincide with the specification's
four-case rule, and — independent of color — the selected option's
text carries the "your answer" marker and the correct option's text
carries the "correct" marker. -/
theorem claim_C9 :
    ∀ (opt text ua correct : String),
      optionColor opt (some ua) correct = specOptionColor opt ua correct
      ∧ (opt = ua →
          ∃ l r, optionText opt text (some ua) correct = l ++ " ← Your answer" ++ r)
      ∧ (opt = correct →
          ∃ l, optionText opt text (some ua) correct = l ++ " ✓ Correct") := by
  intro opt text ua correct
  refine ⟨?_, ?_, ?_⟩
  · unfold optionColor specOptionColor
    by_cases h1 : opt = ua
    · subst h1
      by_cases h2 : opt = correct
      · subst h2; simp
      · simp [h2, Ne.symm]
    · by_cases h2 : ua = correct
      · subst h2
        simp [h1]
      · by_cases h3 : opt = correct
        · subst h3
          simp [h1, h2, Ne.symm h1]
        · simp [h1, h2, h3, Option.some_inj]
  · intro h
    subst h
    unfold optionText
    simp only [if_pos rfl]
    by_cases h2 : opt = correct
    · rw [if_pos h2]
      exact ⟨"   " ++ opt ++ ". " ++ text, " ✓ Correct", by simp [String.append_assoc]⟩
    · rw [if_neg h2]
      exact ⟨"   " ++ opt ++ ". " ++ text, "", by simp [String.append_assoc]⟩
  · intro h
    subst h
    unfold optionText
    simp only [if_pos rfl]
    by_cases h2 : some opt = some ua
    · rw [if_pos h2]
      exact ⟨("   " ++ opt ++ ". " ++ text) ++ " ← Your answer", rfl⟩
    · rw [if_neg h2]
      exact ⟨"   " ++ opt ++ ". " ++ text, rfl⟩

/-- Witness for C9: the selected-and-correct option is green and
carries both markers. -/
theorem claim_C9_witness :
    optionColor "A" (some "A") "A" = specOptionColor "A" "A" "A"
    ∧ (∃ l r, optionText "A" "Paris" (some "A") "A" = l ++ " ← Your answer" ++ r)
    ∧ (∃ l, optionText "A" "Paris" (some "A") "A" = l ++ " ✓ Correct") :=
  ⟨(claim_C9 "A" "Paris" "A" "A").1, (claim_C9 "A" "Paris" "A" "A").2.1 rfl,
   (claim_C9 "A" "Paris" "A" "A").2.2 rfl⟩
